import Mathlib

/-!
Verification of the expense-tracker backend.

This file gives a shallow embedding, in Lean 4, of the data-retention /
cleanup subsystem and of the weekly-analysis aggregation engine of the
expense-tracker backend, and proves (or refutes) the specification claims
about them.

Modelling conventions:
- JavaScript numbers used as money amounts are modelled as `Rat`
  (the aggregation only adds and divides by small constants).
- Occurrence dates are modelled at calendar-day granularity (the data model
  declares the occurrence date to be a calendar date): a date is the `Int`
  number of days since 1970-01-01.  `daysFromCivil` converts a Gregorian
  calendar date to such a day number.
- A JavaScript `Date` value may be the Invalid Date (produced by parsing an
  unparseable string); it is modelled as `Option Int` (`none` = Invalid Date),
  with all comparisons against the Invalid Date false, as in JS (NaN
  comparisons).
- JavaScript truthiness on optional strings (used by the Firestore model
  guards such as `if (userId)`) is modelled by `jsTruthyStr`.
- Firestore stores are modelled as lists of records; document ids are `Nat`.
-/

namespace ExpenseTracker

/-- JS truthiness of a possibly-absent string: `undefined` and the empty
string are falsy, every other string is truthy. -/
def jsTruthyStr (s : Option String) : Bool :=
  match s with
  | some v => v ≠ ""
  | none => false

/-- JS `a || d` for a possibly-absent integer (0 and `undefined` are falsy),
used for `user.dataRetention?.months || 3`. -/
def jsOrInt (v : Option Int) (d : Int) : Int :=
  match v with
  | some x => if x ≠ 0 then x else d
  | none => d

/-- A JavaScript `Date` value at day granularity: `some d` is the calendar
day numbered `d` (days since 1970-01-01), `none` is the Invalid Date. -/
abbrev JsDate := Option Int

/-- JS `<=` on dates: any comparison involving the Invalid Date is false
(its time value is NaN). -/
def jsLe (a b : JsDate) : Bool :=
  match a, b with
  | some x, some y => x ≤ y
  | _, _ => false

/-- JS `<` on dates: any comparison involving the Invalid Date is false. -/
def jsLt (a b : JsDate) : Bool :=
  match a, b with
  | some x, some y => x < y
  | _, _ => false

/-- moment `.add(n, days)`: adding days to the Invalid Date stays invalid. -/
def jsAddDays (a : JsDate) (n : Int) : JsDate :=
  a.map (· + n)

/-- Day number (days since 1970-01-01) of the Gregorian date y-m-d, month
1-based.  Standard civil-from-days algorithm; used to write concrete
calendar dates in the theorems below. -/
def daysFromCivil (y m d : Int) : Int :=
  let yy := if m ≤ 2 then y - 1 else y
  let era := (if 0 ≤ yy then yy else yy - 399) / 400
  let yoe := yy - era * 400
  let mp := (m + 9) % 12
  let doy := (153 * mp + 2) / 5 + d - 1
  let doe := yoe * 365 + yoe / 4 - yoe / 100 + doy
  era * 146097 + doe - 719468

/-- Day number of 1970-01-01, the lower bound string used by the cleanup
range queries. -/
def epochDay : Int := daysFromCivil 1970 1 1

/-- A calendar date as produced by the JS `Date(year, monthIndex, day)`
constructor; `month` is 0-based as in `Date.prototype.getMonth`. -/
structure CutoffDate where
  year : Int
  month : Int
  day : Int
deriving Repr, DecidableEq

/-- Embeds `calculateCutoffDate` of `dataRetentionService`:
`new Date(now.getFullYear(), now.getMonth() - retentionMonths, 1)`.
The JS Date constructor normalizes an out-of-range month index m to
year + floor(m / 12), month m mod 12; the result is the first day of the
resulting month, at local midnight.  `nowMonth` is 0-based. -/
def calculateCutoffDate (nowYear nowMonth retentionMonths : Int) : CutoffDate :=
  let m := nowMonth - retentionMonths
  ⟨nowYear + m / 12, m % 12, 1⟩

/-- Day number of a `CutoffDate` (its `month` is 0-based). -/
def CutoffDate.toDay (c : CutoffDate) : Int :=
  daysFromCivil c.year (c.month + 1) c.day

/-- An expense document of the `expenses` Firestore collection.  `userId` is
optional because `ExpenseModel.create` only attaches it when provided;
`category` is optional (auto-categorized when absent).  `date` is the
occurrence date as a day number. -/
structure Expense where
  id : Nat
  userId : Option String
  date : Int
  amount : Rat
  description : String
  category : Option String
deriving Repr, DecidableEq

/-- Insert an element into a descending-sorted list: it goes in front of the
first element strictly below it. -/
def insertDescBy (lt : α → α → Bool) (e : α) : List α → List α
  | [] => [e]
  | x :: xs => if lt x e then e :: x :: xs else x :: insertDescBy lt e xs

/-- Sort a list descending with respect to `lt` (models the client-side
`Array.prototype.sort` calls with a descending comparator; only the
membership and length of the result matter to the claims). -/
def sortDescBy (lt : α → α → Bool) : List α → List α
  | [] => []
  | x :: xs => insertDescBy lt x (sortDescBy lt xs)

/-- Embeds `ExpenseModel.find` (src/models/FirestoreExpense.js): filter by
`userId` when that argument is truthy, then by
`date >= startDate && date <= endDate` when both bounds are present, then
sort by date (descending by default; the callers below always use the
default). -/
def expenseFind (store : List Expense) (range : Option (JsDate × JsDate))
    (userId : Option String) : List Expense :=
  let afterUser :=
    if jsTruthyStr userId then store.filter (fun e => e.userId == userId) else store
  let afterDate :=
    match range with
    | some (s, en) =>
        afterUser.filter (fun e => jsLe s (some e.date) && jsLe (some e.date) en)
    | none => afterUser
  sortDescBy (fun a b => a.date < b.date) afterDate

/-- Embeds `ExpenseModel.getByDateRange`: a `find` with a date range and
default date-descending sort. -/
def getByDateRange (store : List Expense) (startDate endDate : JsDate)
    (userId : Option String) : List Expense :=
  expenseFind store (some (startDate, endDate)) userId

/-- JS `expense.category || Other`: absent or empty category becomes the
Other category. -/
def categoryOrOther (c : Option String) : String :=
  match c with
  | some s => if s = "" then "Other" else s
  | none => "Other"

/-- One entry of the category breakdown of a weekly analysis. -/
structure CatEntry where
  category : String
  total : Rat
  count : Nat
  percentage : Rat
deriving Repr, DecidableEq

/-- One entry of the daily totals of a weekly analysis. -/
structure DayEntry where
  date : JsDate
  total : Rat
  expenseCount : Nat
deriving Repr, DecidableEq

/-- One entry of the top-expenses list of a weekly analysis. -/
structure TopEntry where
  amount : Rat
  description : String
  category : Option String
  date : Int
deriving Repr, DecidableEq

/-- The categoryMap accumulation of `createWeeklyAnalysis`: a JS `Map` in
insertion order from category to running total and count. -/
def accumCats (expenses : List Expense) : List (String × Rat × Nat) :=
  expenses.foldl
    (fun acc e =>
      let cat := categoryOrOther e.category
      if acc.any (fun p => p.1 == cat) then
        acc.map (fun p => if p.1 == cat then (p.1, p.2.1 + e.amount, p.2.2 + 1) else p)
      else acc ++ [(cat, e.amount, 1)])
    []

/-- The categoryBreakdown of `createWeeklyAnalysis`: per-category totals with
percentage of the week total, sorted descending by total. -/
def buildCategoryBreakdown (expenses : List Expense) (totalAmount : Rat) :
    List CatEntry :=
  sortDescBy (fun a b => decide (a.total < b.total))
    ((accumCats expenses).map (fun p => ⟨p.1, p.2.1, p.2.2, p.2.1 / totalAmount * 100⟩))

/-- The dailyMap initialisation of `createWeeklyAnalysis`: seven zero
buckets keyed by the calendar days weekStart .. weekStart + 6, in order. -/
def initDailyMap (weekStart : JsDate) : List DayEntry :=
  (List.range 7).map (fun i => ⟨jsAddDays weekStart (i : Int), 0, 0⟩)

/-- One step of filling the dailyMap: an expense is added to the bucket of
its calendar day when such a bucket exists, and is dropped otherwise
(`if (dailyMap.has(dateKey))`). -/
def bumpDaily (m : List DayEntry) (e : Expense) : List DayEntry :=
  if m.any (fun d => d.date == some e.date) then
    m.map (fun d =>
      if d.date == some e.date then ⟨d.date, d.total + e.amount, d.expenseCount + 1⟩
      else d)
  else m

/-- The dailyTotals of `createWeeklyAnalysis`: the seven buckets after all
expenses of the week are folded in. -/
def buildDailyTotals (weekStart : JsDate) (expenses : List Expense) :
    List DayEntry :=
  expenses.foldl bumpDaily (initDailyMap weekStart)

/-- The topExpenses of `createWeeklyAnalysis`: the five highest-amount
expenses of the week, descending. -/
def buildTopExpenses (expenses : List Expense) : List TopEntry :=
  ((sortDescBy (fun a b => decide (a.amount < b.amount)) expenses).take 5).map
    (fun e => ⟨e.amount, e.description, e.category, e.date⟩)

/-- The computed fields of a weekly analysis (the `analysisData` object of
`createWeeklyAnalysis`; the derived insights object is not referenced by any
claim and is left out of the record). -/
structure AnalysisData where
  weekStartDate : JsDate
  weekEndDate : JsDate
  totalAmount : Rat
  totalExpenses : Nat
  averageDailySpend : Rat
  categoryBreakdown : List CatEntry
  dailyTotals : List DayEntry
  topExpenses : List TopEntry
deriving Repr, DecidableEq

/-- The zero-value analysis returned by `createWeeklyAnalysis` when the
week has no expenses: all numeric fields 0 and all collections empty. -/
def zeroAnalysis (weekStart weekEnd : JsDate) : AnalysisData :=
  ⟨weekStart, weekEnd, 0, 0, 0, [], [], []⟩

/-- A document of the `weeklyAnalyses` Firestore collection: the computed
fields plus identity and any attached AI-suggestion payload. -/
structure AnalysisDoc where
  id : Nat
  userId : Option String
  data : AnalysisData
  aiSuggestions : Option String
deriving Repr, DecidableEq

/-- Embeds `WeeklyAnalysisModel.findByWeek`
(src/models/FirestoreWeeklyAnalysis.js): filter by `userId` when truthy,
then keep documents whose weekStartDate falls within the calendar day of the
argument (start-of-day to end-of-day; at day granularity that is equality,
and always false for the Invalid Date), and return the first match. -/
def findByWeek (store : List AnalysisDoc) (weekStartDate : JsDate)
    (userId : Option String) : Option AnalysisDoc :=
  let docs :=
    if jsTruthyStr userId then store.filter (fun d => d.userId == userId) else store
  (docs.filter (fun d =>
    jsLe weekStartDate d.data.weekStartDate
      && jsLe d.data.weekStartDate weekStartDate)).head?

/-- Embeds `WeeklyAnalysisModel.findOneAndUpdate`: look up by
(filter.weekStartDate, filter.userId); on a hit, update the found document
in place (the Firestore `update` merges: the computed fields are replaced,
`id`, `userId` and `aiSuggestions` are untouched); on a miss with
`upsert`, create a new document whose userId is
`filter.userId || updateData.userId` (the update payload carries no userId,
so a falsy filter userId yields a document without one).  `nextId` is the
fresh Firestore document id. -/
def findOneAndUpdate (store : List AnalysisDoc) (nextId : Nat)
    (filterWeekStart : JsDate) (filterUserId : Option String)
    (updateData : AnalysisData) (upsert : Bool) :
    List AnalysisDoc × Option AnalysisDoc :=
  match findByWeek store filterWeekStart filterUserId with
  | some existing =>
      let updated := { existing with data := updateData }
      (store.map (fun d => if d.id == existing.id then updated else d), some updated)
  | none =>
      if upsert then
        let doc : AnalysisDoc :=
          ⟨nextId, if jsTruthyStr filterUserId then filterUserId else none,
            updateData, none⟩
        (store ++ [doc], some doc)
      else (store, none)

/-- Embeds `createWeeklyAnalysis` of the analysis controller: fetch the
expenses of the week with NO user filter (the controller passes no userId to
`Expense.find`), return the zero-value analysis without persisting anything
when there are none, and otherwise compute the aggregates and upsert them
keyed by `{ weekStartDate: weekStart }` alone (the filter carries no
userId).  Returns the new analysis store and the computed fields. -/
def createWeeklyAnalysis (expStore : List Expense) (anaStore : List AnalysisDoc)
    (nextId : Nat) (weekStart weekEnd : JsDate) :
    List AnalysisDoc × AnalysisData :=
  let expenses := expenseFind expStore (some (weekStart, weekEnd)) none
  if expenses.isEmpty then
    (anaStore, zeroAnalysis weekStart weekEnd)
  else
    let totalAmount := expenses.foldl (fun s e => s + e.amount) 0
    let totalExpenses := expenses.length
    let averageDailySpend := totalAmount / 7
    let analysisData : AnalysisData :=
      ⟨weekStart, weekEnd, totalAmount, totalExpenses, averageDailySpend,
        buildCategoryBreakdown expenses totalAmount,
        buildDailyTotals weekStart expenses,
        buildTopExpenses expenses⟩
    let upserted := findOneAndUpdate anaStore nextId weekStart none analysisData true
    (upserted.1, analysisData)

/-- Split a character list at every dash, keeping empty groups. -/
def splitDash (cs : List Char) : List (List Char) :=
  match cs with
  | [] => [[]]
  | c :: rest =>
      let r := splitDash rest
      if c = '-' then [] :: r
      else
        match r with
        | [] => [[c]]
        | g :: gs => (c :: g) :: gs

/-- Numeric value of a non-empty all-digit character group. -/
def digitsToNat (cs : List Char) : Option Nat :=
  if cs ≠ [] ∧ cs.all (fun c => c.isDigit) then
    some (cs.foldl (fun n c => n * 10 + (c.toNat - 48)) 0)
  else none

/-- Embeds moment(startDate).startOf(day) for an ISO calendar-date string:
a YYYY-MM-DD string parses to its day number, anything else yields the
Invalid Date (startOf(day) is the identity at day granularity). -/
def momentParse (s : String) : JsDate :=
  match splitDash s.data with
  | [ys, ms, ds] =>
      match digitsToNat ys, digitsToNat ms, digitsToNat ds with
      | some y, some m, some d =>
          if 1 ≤ m ∧ m ≤ 12 ∧ 1 ≤ d ∧ d ≤ 31 then
            some (daysFromCivil (y : Int) (m : Int) (d : Int))
          else none
      | _, _, _ => none
  | _ => none

/-- JS falsiness of the startDate request parameter: absent or empty. -/
def jsFalsy (s : Option String) : Bool :=
  !jsTruthyStr s

/-- Embeds the GET /api/analysis/weekly handler (`getWeeklyAnalysis`):
reject with 400 only when startDate is falsy; otherwise parse it with
moment (an unparseable string gives the Invalid Date and is NOT rejected),
look the week up without a user filter, and generate the analysis on a
miss.  Returns the HTTP status and the resulting analysis store. -/
def getWeeklyAnalysisRoute (startDate : Option String) (expStore : List Expense)
    (anaStore : List AnalysisDoc) (nextId : Nat) : Nat × List AnalysisDoc :=
  if jsFalsy startDate then (400, anaStore)
  else
    let weekStart := momentParse (startDate.getD "")
    let weekEnd := jsAddDays weekStart 6
    match findByWeek anaStore weekStart none with
    | some _ => (200, anaStore)
    | none => ((createWeeklyAnalysis expStore anaStore nextId weekStart weekEnd).1
        |> fun s => (200, s))

/-- Embeds the POST /api/analysis/weekly/generate handler
(`generateWeeklyAnalysis`): reject with 400 only when startDate is falsy;
otherwise always recompute and upsert, answering 201. -/
def generateWeeklyAnalysisRoute (startDate : Option String)
    (expStore : List Expense) (anaStore : List AnalysisDoc) (nextId : Nat) :
    Nat × List AnalysisDoc :=
  if jsFalsy startDate then (400, anaStore)
  else
    let weekStart := momentParse (startDate.getD "")
    let weekEnd := jsAddDays weekStart 6
    (201, (createWeeklyAnalysis expStore anaStore nextId weekStart weekEnd).1)

/-- Embeds `WeeklyAnalysisModel.getRecentAnalyses`: the whole collection
ordered by weekStartDate descending, truncated to `limit`.  No user filter
exists in the query. -/
def getRecentAnalyses (store : List AnalysisDoc) (limit : Nat) :
    List AnalysisDoc :=
  (sortDescBy (fun a b => jsLt a.data.weekStartDate b.data.weekStartDate) store).take
    limit

/-- Embeds the GET /api/analysis/recent handler: the authenticated caller
(`req.userId`) is available but the controller passes only the limit to the
model, so the response ignores the caller entirely. -/
def getRecentAnalysesRoute (callerUserId : Option String)
    (store : List AnalysisDoc) (limit : Nat) : List AnalysisDoc :=
  getRecentAnalyses store limit

/-- The deletion set of the retention engine: `cleanupUserExpenses` (and
`getCleanupPreview`, and the staleness check of `shouldCleanupUser`) all run
`Expense.getByDateRange(1970-01-01, cutoffDate.toISOString(), userId)`,
i.e. the user-scoped range query from the epoch to the cutoff. -/
def retentionDeletionSet (store : List Expense) (userId : String)
    (nowYear nowMonth months : Int) : List Expense :=
  getByDateRange store (some epochDay)
    (some ((calculateCutoffDate nowYear nowMonth months).toDay)) (some userId)

/-- Modelled from the spec: the Expense Store operation `deleteById(id)`
(`Expense.delete`, re-exported through src/models/index.js which is not
part of the sources) removes the expense document with the given id. -/
def deleteExpenseById (store : List Expense) (id : Nat) : List Expense :=
  store.filter (fun e => e.id != id)

/-- The deletion loop of `cleanupUserExpenses`: each matched expense is
deleted by id.  The fixed-size batches and inter-batch pauses of the source
do not change the final store. -/
def removeMatchedExpenses (store toDelete : List Expense) : List Expense :=
  toDelete.foldl (fun s e => deleteExpenseById s e.id) store

/-- Embeds `cleanupUserExpenses` of `dataRetentionService`: compute the
cutoff, query the deletion set, delete each matched expense by id, and
report how many were deleted (in this pure model every delete succeeds, so
the count is the size of the deletion set; when the set is empty the source
returns 0 without deleting, which coincides). -/
def cleanupUserExpenses (store : List Expense) (userId : String)
    (nowYear nowMonth months : Int) : List Expense × Nat :=
  let toDelete := retentionDeletionSet store userId nowYear nowMonth months
  (removeMatchedExpenses store toDelete, toDelete.length)

/-- Modelled from the spec: `WeeklyAnalysis.getOlderThan(cutoffDate, userId)`
(re-exported through src/models/index.js, absent from the sources) returns
the WeeklyAnalysis records of the owner whose week falls entirely before the
cutoff, i.e. whose week end date is before the cutoff day. -/
def getOlderThan (store : List AnalysisDoc) (cutoffDay : Int) (userId : String) :
    List AnalysisDoc :=
  store.filter (fun d =>
    d.userId == some userId && jsLt d.data.weekEndDate (some cutoffDay))

/-- Modelled from the spec: `WeeklyAnalysis.delete(id)` removes the analysis
document with the given id. -/
def deleteAnalysisById (store : List AnalysisDoc) (id : Nat) : List AnalysisDoc :=
  store.filter (fun d => d.id != id)

/-- The deletion loop of `cleanupUserAnalysis`: each matched analysis is
deleted by id. -/
def removeMatchedAnalyses (store toDelete : List AnalysisDoc) : List AnalysisDoc :=
  toDelete.foldl (fun s a => deleteAnalysisById s a.id) store

/-- Embeds `cleanupUserAnalysis` of `dataRetentionService`: fetch the
analyses of the owner older than the cutoff and delete each by id,
reporting the count. -/
def cleanupUserAnalysis (store : List AnalysisDoc) (userId : String)
    (nowYear nowMonth months : Int) : List AnalysisDoc × Nat :=
  let old :=
    getOlderThan store ((calculateCutoffDate nowYear nowMonth months).toDay) userId
  (removeMatchedAnalyses store old, old.length)

/-- Embeds `cleanupUser` of `dataRetentionService`: expense cleanup followed
by analysis cleanup; the result carries both deletion counts. -/
def cleanupUser (expStore : List Expense) (anaStore : List AnalysisDoc)
    (userId : String) (months nowYear nowMonth : Int) :
    List Expense × List AnalysisDoc × Nat × Nat :=
  let e := cleanupUserExpenses expStore userId nowYear nowMonth months
  let a := cleanupUserAnalysis anaStore userId nowYear nowMonth months
  (e.1, a.1, e.2, a.2)

/-- A document of the `users` collection, with the fields the data-retention
paths read: account status, creation time (ms since epoch), role, and the
retention settings. -/
structure UserRec where
  id : String
  status : Option String
  createdAtMs : Int
  role : Option String
  isActive : Bool
  retentionMonths : Option Int
  lastCleanupMs : Option Int
deriving Repr, DecidableEq

/-- Embeds `User.findById`: the user document with the given id. -/
def findUserById (users : List UserRec) (id : String) : Option UserRec :=
  (users.filter (fun u => u.id == id)).head?

/-- The store state the data-retention routes act on. -/
structure SystemState where
  expenses : List Expense
  analyses : List AnalysisDoc
  users : List UserRec
deriving Repr, DecidableEq

/-- SECURITY_CONFIG.CONFIRMATION.CONFIRMATION_TEXT. -/
def CONFIRMATION_TEXT : String := "DELETE_MY_DATA"

/-- SECURITY_CONFIG.CONFIRMATION.ADMIN_CONFIRMATION_TEXT, the confirmation
string the security configuration declares for admin (global) cleanup. -/
def ADMIN_CONFIRMATION_TEXT : String := "GLOBAL_CLEANUP_CONFIRMED"

/-- Embeds the `requireCleanupConfirmation` middleware
(src/middleware/dataRetentionSecurity.js): the request body confirmation
passes exactly when it is the string DELETE_MY_DATA; the middleware is
mounted on BOTH the per-user and the admin cleanup routes and compares
against that single hard-coded string. -/
def requireCleanupConfirmation (confirmation : Option String) : Bool :=
  confirmation == some CONFIRMATION_TEXT

/-- Minimum account age required by `checkDataRetentionPermissions`, in ms. -/
def minAccountAgeMs : Int := 7 * 24 * 60 * 60 * 1000

/-- A request to one of the cleanup routes: the authenticated user id
(absent when authentication failed), the body confirmation field, and the
verdict of the express-rate-limit middleware (an external library, modelled
as the boolean outcome of its sliding-window check). -/
structure CleanupRequest where
  userId : Option String
  confirmation : Option String
  rateLimitOk : Bool
deriving Repr, DecidableEq

/-- Embeds POST /api/data-retention/cleanup: the middleware chain
authenticateToken, cleanupRateLimit, checkDataRetentionPermissions,
requireCleanupConfirmation, then the handler (which re-reads the user,
derives retentionMonths with `user.dataRetention?.months || 3`, runs
`schedulerService.triggerUserCleanup` = `dataRetentionService.cleanupUser`,
and stamps `dataRetention.lastCleanup`).  Returns the HTTP status and the
resulting state. -/
def cleanupRoute (req : CleanupRequest) (st : SystemState)
    (nowMs nowYear nowMonth : Int) : Nat × SystemState :=
  match req.userId with
  | none => (401, st)
  | some uid =>
    if !req.rateLimitOk then (429, st)
    else
      match findUserById st.users uid with
      | none => (404, st)
      | some user =>
        if user.status == some "suspended" || user.status == some "banned" then
          (403, st)
        else if nowMs - user.createdAtMs < minAccountAgeMs then (403, st)
        else if !requireCleanupConfirmation req.confirmation then (400, st)
        else
          let months := jsOrInt user.retentionMonths 3
          let r := cleanupUser st.expenses st.analyses uid months nowYear nowMonth
          let users1 := st.users.map (fun u =>
            if u.id == uid then { u with lastCleanupMs := some nowMs } else u)
          (200, ⟨r.1, r.2.1, users1⟩)

/-- Embeds `cleanupAllUsers` of `dataRetentionService`: iterate the active
users; for each, `shouldCleanupUser` re-runs the user-scoped stale-expense
query against the current store and, when it is non-empty, `cleanupUser`
runs with the retention months of that owner.  Returns the new state and
(processedUsers, cleanedUsers, totalExpensesDeleted, totalAnalysisDeleted). -/
def cleanupAllUsers (st : SystemState) (nowYear nowMonth : Int) :
    SystemState × Nat × Nat × Nat × Nat :=
  let active := st.users.filter (fun u => u.isActive)
  let out := active.foldl
    (fun (acc : (List Expense × List AnalysisDoc) × Nat × Nat × Nat × Nat) u =>
      let months := jsOrInt u.retentionMonths 3
      let stale := retentionDeletionSet acc.1.1 u.id nowYear nowMonth months
      if stale.isEmpty then
        ((acc.1.1, acc.1.2), acc.2.1 + 1, acc.2.2.1, acc.2.2.2.1, acc.2.2.2.2)
      else
        let r := cleanupUser acc.1.1 acc.1.2 u.id months nowYear nowMonth
        ((r.1, r.2.1), acc.2.1 + 1, acc.2.2.1 + 1, acc.2.2.2.1 + r.2.2.1,
          acc.2.2.2.2 + r.2.2.2))
    ((st.expenses, st.analyses), 0, 0, 0, 0)
  (⟨out.1.1, out.1.2, st.users⟩, out.2)

/-- Embeds POST /api/data-retention/admin/cleanup: the middleware chain
authenticateToken, adminCleanupRateLimit, checkAdminPermissions,
requireCleanupConfirmation, then the handler running
`schedulerService.triggerDataCleanup`, i.e. the global
`cleanupAllUsers`. -/
def adminCleanupRoute (req : CleanupRequest) (st : SystemState)
    (nowYear nowMonth : Int) : Nat × SystemState :=
  match req.userId with
  | none => (401, st)
  | some uid =>
    if !req.rateLimitOk then (429, st)
    else
      match findUserById st.users uid with
      | none => (404, st)
      | some user =>
        if !(user.role == some "admin" || user.role == some "super_admin") then
          (403, st)
        else if !requireCleanupConfirmation req.confirmation then (400, st)
        else (200, (cleanupAllUsers st nowYear nowMonth).1)

theorem mem_insertDescBy {α : Type} (lt : α → α → Bool) (e a : α) (l : List α) :
    a ∈ insertDescBy lt e l ↔ a = e ∨ a ∈ l := by
  induction l with
  | nil => simp [insertDescBy]
  | cons x xs ih =>
    simp only [insertDescBy]
    split
    · simp [List.mem_cons]
    · simp only [List.mem_cons, ih]
      tauto

theorem mem_sortDescBy {α : Type} (lt : α → α → Bool) (a : α) (l : List α) :
    a ∈ sortDescBy lt l ↔ a ∈ l := by
  induction l with
  | nil => simp [sortDescBy]
  | cons x xs ih => simp [sortDescBy, mem_insertDescBy, ih]

theorem mem_retentionDeletionSet (store : List Expense) (u : String)
    (y m months : Int) (e : Expense) :
    e ∈ retentionDeletionSet store u y m months ↔
      e ∈ store ∧ (u ≠ "" → e.userId = some u) ∧ epochDay ≤ e.date
        ∧ e.date ≤ (calculateCutoffDate y m months).toDay := by
  unfold retentionDeletionSet getByDateRange expenseFind
  simp only [mem_sortDescBy]
  by_cases hu : u = ""
  · subst hu
    simp [jsTruthyStr, jsLe, List.mem_filter]
  · simp only [jsTruthyStr, jsLe, List.mem_filter, hu, ne_eq,
      not_false_eq_true, decide_True, if_true, Bool.and_eq_true, decide_eq_true_eq,
      beq_iff_eq]
    tauto

theorem mem_removeMatchedExpenses (store toDelete : List Expense) (x : Expense) :
    x ∈ removeMatchedExpenses store toDelete ↔
      x ∈ store ∧ ∀ d ∈ toDelete, x.id ≠ d.id := by
  induction toDelete generalizing store with
  | nil => simp [removeMatchedExpenses]
  | cons d ds ih =>
    show x ∈ removeMatchedExpenses (deleteExpenseById store d.id) ds ↔ _
    rw [ih]
    simp only [deleteExpenseById, List.mem_filter, List.forall_mem_cons,
      bne_iff_ne, ne_eq]
    tauto

theorem mem_removeMatchedAnalyses (store toDelete : List AnalysisDoc)
    (x : AnalysisDoc) :
    x ∈ removeMatchedAnalyses store toDelete ↔
      x ∈ store ∧ ∀ d ∈ toDelete, x.id ≠ d.id := by
  induction toDelete generalizing store with
  | nil => simp [removeMatchedAnalyses]
  | cons d ds ih =>
    show x ∈ removeMatchedAnalyses (deleteAnalysisById store d.id) ds ↔ _
    rw [ih]
    simp only [deleteAnalysisById, List.mem_filter, List.forall_mem_cons,
      bne_iff_ne, ne_eq]
    tauto

theorem mem_getOlderThan (store : List AnalysisDoc) (c : Int) (u : String)
    (a : AnalysisDoc) :
    a ∈ getOlderThan store c u ↔
      a ∈ store ∧ a.userId = some u ∧ jsLt a.data.weekEndDate (some c) = true := by
  simp [getOlderThan, List.mem_filter, and_assoc]

theorem map_date_bumpDaily (m : List DayEntry) (e : Expense) :
    (bumpDaily m e).map (fun d => d.date) = m.map (fun d => d.date) := by
  unfold bumpDaily
  split
  · rw [List.map_map]
    apply List.map_congr_left
    intro d _
    simp only [Function.comp_apply]
    split <;> rfl
  · rfl

theorem map_date_foldl_bumpDaily (es : List Expense) (m : List DayEntry) :
    (es.foldl bumpDaily m).map (fun d => d.date) = m.map (fun d => d.date) := by
  induction es generalizing m with
  | nil => rfl
  | cons e es ih =>
    simp only [List.foldl_cons]
    rw [ih, map_date_bumpDaily]

end ExpenseTracker

namespace ExpenseTracker

/-- C2: for every retentionMonths N and every fixed current date, the cutoff
is the first day (midnight) of the calendar month N months before the current
month, and the function is a pure function of N and the current date (it is
a Lean function of exactly those inputs, so two calls with the same
arguments are definitionally identical).  The month is characterized by its
linear month index year * 12 + month; the concrete conjunct is the spec
example: N = 3 with current date 2025-03-15 (month index 2, 0-based) yields
2024-12-01. -/
theorem calculateCutoffDate_first_day_of_month_minus_N (N nowYear nowMonth : Int) :
    ((calculateCutoffDate nowYear nowMonth N).year * 12
        + (calculateCutoffDate nowYear nowMonth N).month
      = (nowYear * 12 + nowMonth) - N)
    ∧ 0 ≤ (calculateCutoffDate nowYear nowMonth N).month
    ∧ (calculateCutoffDate nowYear nowMonth N).month < 12
    ∧ (calculateCutoffDate nowYear nowMonth N).day = 1
    ∧ calculateCutoffDate 2025 2 3 = ⟨2024, 11, 1⟩ := by
  refine ⟨?_, ?_, ?_, rfl, by decide⟩
  · simp only [calculateCutoffDate]
    omega
  · simp only [calculateCutoffDate]
    omega
  · simp only [calculateCutoffDate]
    omega

/-- C1: the weekly-analysis upsert is NOT keyed by (owner, week-start).
The controller calls `WeeklyAnalysis.findOneAndUpdate` with the filter
`{ weekStartDate: weekStart }` and no userId, so a computation by owner B
for a week in which owner A already has a stored analysis finds and
overwrites the record of A: afterwards the store still holds exactly one
record for the week, it still belongs to A, its computed fields are those
of the run by B (totalExpenses 1, replacing the previous 2), and B has no
record of their own. -/
theorem createWeeklyAnalysis_upsert_ignores_owner :
    let expenseOfB : Expense := ⟨1, some "B", 700, 50, "lunch", some "Food"⟩
    let docOfA : AnalysisDoc :=
      ⟨0, some "A", ⟨some 700, some 706, 100, 2, 100 / 7, [], [], []⟩, none⟩
    let result := (createWeeklyAnalysis [expenseOfB] [docOfA] 5 (some 700)
      (some 706)).1
    result.map (fun d => d.userId) = [some "A"]
      ∧ result.map (fun d => d.data.totalExpenses) = [1]
      ∧ result.filter (fun d => d.userId == some "B") = [] := by
  decide

/-- C3: the claimed strict cutoff boundary is refuted by the code.  With
retentionMonths = 3 and the current date 2025-03-15 the cutoff is
2024-12-01, and an expense whose occurrence date is exactly 2024-12-01 IS a
member of the cleanup deletion set, because the range query uses
`date <= endDate` (inclusive); the claim asserts it is excluded.  The
2024-11-30 expense is a member, as claimed. -/
theorem retentionDeletionSet_includes_cutoff_day :
    let eNov30 : Expense := ⟨0, some "u", daysFromCivil 2024 11 30, 1, "a", none⟩
    let eDec1 : Expense := ⟨1, some "u", daysFromCivil 2024 12 1, 1, "b", none⟩
    (calculateCutoffDate 2025 2 3).toDay = daysFromCivil 2024 12 1
      ∧ eDec1 ∈ retentionDeletionSet [eNov30, eDec1] "u" 2025 2 3
      ∧ eNov30 ∈ retentionDeletionSet [eNov30, eDec1] "u" 2025 2 3 := by
  decide

/-- C3 (amended): for every owner (with a non-empty id, as issued by the
user store) the cleanup/preview deletion set consists exactly of that
expenses of the owner with occurrence date between 1970-01-01 and the cutoff
date INCLUSIVE of the cutoff day itself. -/
theorem retentionDeletionSet_characterization (store : List Expense) (u : String)
    (y m months : Int) (e : Expense) (hu : u ≠ "") :
    e ∈ retentionDeletionSet store u y m months ↔
      e ∈ store ∧ e.userId = some u ∧ epochDay ≤ e.date
        ∧ e.date ≤ (calculateCutoffDate y m months).toDay := by
  rw [mem_retentionDeletionSet]
  constructor
  · rintro ⟨h1, h2, h3, h4⟩
    exact ⟨h1, h2 hu, h3, h4⟩
  · rintro ⟨h1, h2, h3, h4⟩
    exact ⟨h1, fun _ => h2, h3, h4⟩

/-- C3 (amended) witness: the characterization applied to the concrete
boundary scenario of the claim. -/
theorem retentionDeletionSet_characterization_witness :
    ("u" : String) ≠ ""
      ∧ (⟨0, some "u", daysFromCivil 2024 11 30, 1, "a", none⟩ : Expense)
          ∈ retentionDeletionSet
              [⟨0, some "u", daysFromCivil 2024 11 30, 1, "a", none⟩] "u" 2025 2 3 := by
  refine ⟨by decide, ?_⟩
  exact (retentionDeletionSet_characterization
    [⟨0, some "u", daysFromCivil 2024 11 30, 1, "a", none⟩] "u" 2025 2 3
    ⟨0, some "u", daysFromCivil 2024 11 30, 1, "a", none⟩ (by decide)).mpr
    (by refine ⟨by decide, by decide, by decide, by decide⟩)

/-- C6: the security configuration declares GLOBAL_CLEANUP_CONFIRMED as the
admin confirmation text, but the admin cleanup route is gated by the same
`requireCleanupConfirmation` middleware as the per-user route, which only
accepts DELETE_MY_DATA.  An authenticated admin within the rate limit who
sends GLOBAL_CLEANUP_CONFIRMED is rejected with 400 and the global cleanup
does not run (the state is unchanged), even though the store holds a stale
expense that `cleanupAllUsers` would have deleted. -/
theorem adminCleanupRoute_rejects_admin_confirmation_text :
    let adminUser : UserRec := ⟨"root", some "active", 0, some "admin", true, none, none⟩
    let staleExpense : Expense :=
      ⟨0, some "root", daysFromCivil 2020 1 1, 5, "old", some "Food"⟩
    let st : SystemState := ⟨[staleExpense], [], [adminUser]⟩
    adminCleanupRoute ⟨some "root", some ADMIN_CONFIRMATION_TEXT, true⟩ st 2025 2
        = (400, st)
      ∧ (cleanupAllUsers st 2025 2).1.expenses = [] := by
  decide

/-- C4: cleanup is idempotent.  Running `cleanupUser` twice in succession
with the same owner, retention months and current date, and no intervening
writes, makes the second run report 0 deleted expenses and 0 deleted
analyses: the first run removed everything the deletion queries match, so
both second-run queries come back empty. -/
theorem cleanupUser_idempotent (expStore : List Expense)
    (anaStore : List AnalysisDoc) (u : String) (months y m : Int) :
    (cleanupUser (cleanupUser expStore anaStore u months y m).1
        (cleanupUser expStore anaStore u months y m).2.1 u months y m).2.2.1 = 0
    ∧ (cleanupUser (cleanupUser expStore anaStore u months y m).1
        (cleanupUser expStore anaStore u months y m).2.1 u months y m).2.2.2 = 0 := by
  have hred1 : (cleanupUser expStore anaStore u months y m).1
      = removeMatchedExpenses expStore (retentionDeletionSet expStore u y m months) :=
    rfl
  have hred2 : (cleanupUser expStore anaStore u months y m).2.1
      = removeMatchedAnalyses anaStore
          (getOlderThan anaStore ((calculateCutoffDate y m months).toDay) u) := rfl
  have hcount1 : ∀ (es : List Expense) (as2 : List AnalysisDoc),
      (cleanupUser es as2 u months y m).2.2.1
        = (retentionDeletionSet es u y m months).length := fun _ _ => rfl
  have hcount2 : ∀ (es : List Expense) (as2 : List AnalysisDoc),
      (cleanupUser es as2 u months y m).2.2.2
        = (getOlderThan as2 ((calculateCutoffDate y m months).toDay) u).length :=
    fun _ _ => rfl
  rw [hcount1, hcount2, hred1, hred2]
  constructor
  · rw [List.length_eq_zero, List.eq_nil_iff_forall_not_mem]
    intro x hx
    rw [mem_retentionDeletionSet] at hx
    obtain ⟨hx1, hc⟩ := hx
    rw [mem_removeMatchedExpenses] at hx1
    obtain ⟨hst, hall⟩ := hx1
    exact hall x ((mem_retentionDeletionSet expStore u y m months x).mpr ⟨hst, hc⟩) rfl
  · rw [List.length_eq_zero, List.eq_nil_iff_forall_not_mem]
    intro a ha
    rw [mem_getOlderThan] at ha
    obtain ⟨ha1, hc⟩ := ha
    rw [mem_removeMatchedAnalyses] at ha1
    obtain ⟨hst, hall⟩ := ha1
    exact hall a ((mem_getOlderThan anaStore _ u a).mpr ⟨hst, hc⟩) rfl

/-- C5: every request to POST /api/data-retention/cleanup whose body
confirmation is absent or differs from DELETE_MY_DATA is rejected with a
4xx status before the handler runs, and the expense and analysis stores
are unchanged (every middleware ahead of the handler only reads). -/
theorem cleanupRoute_rejects_bad_confirmation (req : CleanupRequest)
    (st : SystemState) (nowMs y m : Int)
    (h : req.confirmation ≠ some CONFIRMATION_TEXT) :
    400 ≤ (cleanupRoute req st nowMs y m).1
    ∧ (cleanupRoute req st nowMs y m).1 < 500
    ∧ (cleanupRoute req st nowMs y m).2.expenses = st.expenses
    ∧ (cleanupRoute req st nowMs y m).2.analyses = st.analyses := by
  obtain ⟨ruid, rconf, rrl⟩ := req
  have hc : requireCleanupConfirmation rconf = false := by
    simp only [requireCleanupConfirmation, beq_eq_false_iff_ne, ne_eq]
    exact h
  unfold cleanupRoute
  cases ruid with
  | none =>
    exact ⟨(by decide : (400 : Nat) ≤ 401), (by decide : (401 : Nat) < 500), rfl, rfl⟩
  | some uid =>
    simp only
    cases rrl with
    | false =>
      exact ⟨(by decide : (400 : Nat) ≤ 429), (by decide : (429 : Nat) < 500), rfl, rfl⟩
    | true =>
      simp only [Bool.not_true, Bool.false_eq_true, if_false]
      cases hfind : findUserById st.users uid with
      | none =>
        exact ⟨(by decide : (400 : Nat) ≤ 404), (by decide : (404 : Nat) < 500), rfl,
          rfl⟩
      | some user =>
        simp only [hc, Bool.not_false, if_true]
        split
        · exact ⟨(by decide : (400 : Nat) ≤ 403), (by decide : (403 : Nat) < 500), rfl,
            rfl⟩
        · split
          · exact ⟨(by decide : (400 : Nat) ≤ 403), (by decide : (403 : Nat) < 500),
              rfl, rfl⟩
          · exact ⟨(by decide : (400 : Nat) ≤ 400), (by decide : (400 : Nat) < 500),
              rfl, rfl⟩

/-- C5 witness: a concrete request with a wrong confirmation string. -/
theorem cleanupRoute_rejects_bad_confirmation_witness :
    (some "WRONG" : Option String) ≠ some CONFIRMATION_TEXT
    ∧ 400 ≤ (cleanupRoute ⟨some "alice", some "WRONG", true⟩ ⟨[], [], []⟩ 0 2025 2).1 := by
  refine ⟨by decide, ?_⟩
  exact (cleanupRoute_rejects_bad_confirmation ⟨some "alice", some "WRONG", true⟩
    ⟨[], [], []⟩ 0 2025 2 (by decide)).1

/-- C7: the claim that dailyTotals always has 7 entries fails for a week
with zero expenses: the zero-value analysis the code returns has an EMPTY
dailyTotals list. -/
theorem createWeeklyAnalysis_empty_week_has_empty_dailyTotals :
    (createWeeklyAnalysis [] [] 0 (some 0) (some 6)).2.dailyTotals = []
    ∧ (createWeeklyAnalysis [] [] 0 (some 0) (some 6)).2.dailyTotals.length ≠ 7 := by
  decide

/-- C7 (amended): whenever the week query returns at least one expense, the
computed dailyTotals has exactly 7 entries, one per calendar day from
weekStart through weekStart + 6 inclusive and in that order. -/
theorem dailyTotals_covers_week (expStore : List Expense)
    (anaStore : List AnalysisDoc) (n : Nat) (w : Int)
    (h : expenseFind expStore (some (some w, some (w + 6))) none ≠ []) :
    (createWeeklyAnalysis expStore anaStore n (some w) (some (w + 6))).2.dailyTotals.map
        (fun d => d.date) = (List.range 7).map (fun i => some (w + (i : Int)))
    ∧ (createWeeklyAnalysis expStore anaStore n (some w)
        (some (w + 6))).2.dailyTotals.length = 7 := by
  have hne : (expenseFind expStore (some (some w, some (w + 6))) none).isEmpty
      = false := by
    cases hq : expenseFind expStore (some (some w, some (w + 6))) none with
    | nil => exact absurd hq h
    | cons a l => rfl
  have hmap : (createWeeklyAnalysis expStore anaStore n (some w)
      (some (w + 6))).2.dailyTotals.map (fun d => d.date)
      = (List.range 7).map (fun i => some (w + (i : Int))) := by
    unfold createWeeklyAnalysis
    simp only [hne, Bool.false_eq_true, if_false]
    unfold buildDailyTotals
    rw [map_date_foldl_bumpDaily]
    simp only [initDailyMap, List.map_map]
    rfl
  refine ⟨hmap, ?_⟩
  have h2 := congrArg List.length hmap
  simpa using h2

/-- C7 (amended) witness: a concrete non-empty week. -/
theorem dailyTotals_covers_week_witness :
    expenseFind [⟨0, none, 3, 10, "z", none⟩] (some (some 0, some (0 + 6))) none ≠ []
    ∧ (createWeeklyAnalysis [⟨0, none, 3, 10, "z", none⟩] [] 0 (some 0)
        (some (0 + 6))).2.dailyTotals.length = 7 := by
  refine ⟨by decide, ?_⟩
  exact (dailyTotals_covers_week [⟨0, none, 3, 10, "z", none⟩] [] 0 0 (by decide)).2

/-- C8: the recent-analyses response is NOT owner-scoped.  With a store
holding a single analysis belonging to owner B, the authenticated caller A
receives that analysis: the controller passes only the limit to the model
and the query has no user filter. -/
theorem getRecentAnalyses_leaks_other_owner :
    (getRecentAnalysesRoute (some "A")
        [⟨0, some "B", ⟨some 100, some 106, 0, 0, 0, [], [], []⟩, none⟩] 10).map
      (fun d => d.userId) = [some "B"]
    ∧ (some "B" : Option String) ≠ some "A" := by
  decide

/-- C8 (amended): GET /api/analysis/recent returns at most N analyses drawn
from the whole analysis store (all owners), ordered by weekStartDate
descending, regardless of who the caller is. -/
theorem getRecentAnalyses_at_most_limit_from_store (caller : Option String)
    (store : List AnalysisDoc) (limit : Nat) :
    (getRecentAnalysesRoute caller store limit).length ≤ limit
    ∧ ∀ a ∈ getRecentAnalysesRoute caller store limit, a ∈ store := by
  constructor
  · unfold getRecentAnalysesRoute getRecentAnalyses
    rw [List.length_take]
    exact min_le_left _ _
  · intro a ha
    unfold getRecentAnalysesRoute getRecentAnalyses at ha
    exact (mem_sortDescBy _ a store).mp (List.take_subset _ _ ha)

/-- C8 (amended) witness. -/
theorem getRecentAnalyses_at_most_limit_from_store_witness :
    (getRecentAnalysesRoute (some "A")
      [⟨0, some "B", ⟨some 100, some 106, 0, 0, 0, [], [], []⟩, none⟩] 3).length ≤ 3 :=
  (getRecentAnalyses_at_most_limit_from_store (some "A")
    [⟨0, some "B", ⟨some 100, some 106, 0, 0, 0, [], [], []⟩, none⟩] 3).1

/-- C9: an unparseable startDate is NOT rejected.  The string not-a-date
parses to the Invalid Date, yet POST generate answers 201 (and GET weekly
answers 200): the handlers only guard against a falsy startDate, so the
claimed 400 validation failure does not happen. -/
theorem weekly_routes_accept_unparseable_startDate :
    momentParse "not-a-date" = none
    ∧ generateWeeklyAnalysisRoute (some "not-a-date") [] [] 0 = (201, [])
    ∧ (getWeeklyAnalysisRoute (some "not-a-date") [] [] 0).1 = 200 := by
  decide

/-- C9 (amended): the weekly-analysis operations answer the 400 validation
error exactly when startDate is absent or empty (JS-falsy), in which case
nothing is computed or stored; a present startDate — parseable or not —
always proceeds (201 for generate, 200 for get). -/
theorem weekly_routes_400_iff_missing_startDate (s : Option String)
    (expStore : List Expense) (anaStore : List AnalysisDoc) (n : Nat) :
    ((generateWeeklyAnalysisRoute s expStore anaStore n).1 = 400 ↔ jsFalsy s = true)
    ∧ (jsFalsy s = true →
        (generateWeeklyAnalysisRoute s expStore anaStore n).2 = anaStore)
    ∧ ((getWeeklyAnalysisRoute s expStore anaStore n).1 = 400 ↔ jsFalsy s = true)
    ∧ (jsFalsy s = true →
        (getWeeklyAnalysisRoute s expStore anaStore n).2 = anaStore) := by
  by_cases hf : jsFalsy s = true
  · simp [generateWeeklyAnalysisRoute, getWeeklyAnalysisRoute, hf]
  · have hgen : (generateWeeklyAnalysisRoute s expStore anaStore n).1 = 201 := by
      unfold generateWeeklyAnalysisRoute
      simp [hf]
    have hget : (getWeeklyAnalysisRoute s expStore anaStore n).1 = 200 := by
      unfold getWeeklyAnalysisRoute
      simp only [hf, Bool.false_eq_true, if_false]
      cases hfw : findByWeek anaStore (momentParse (s.getD "")) none <;> simp
    exact ⟨by rw [hgen]; simp [hf], fun hc => absurd hc hf,
      by rw [hget]; simp [hf], fun hc => absurd hc hf⟩

/-- C9 (amended) witness: an absent startDate is rejected and stores
nothing. -/
theorem weekly_routes_400_iff_missing_startDate_witness :
    (generateWeeklyAnalysisRoute none [] [] 0).2 = ([] : List AnalysisDoc) :=
  (weekly_routes_400_iff_missing_startDate none [] [] 0).2.1 (by decide)

/-- C10: frame property of per-owner cleanup.  Under distinct document ids
(a Firestore collection invariant), an expense of a different owner, or an
expense of the owner dated after the cutoff, is still present unchanged
after `cleanupUser`; and every expense removed by the run is a member of
the user-and-cutoff-scoped range query result. -/
theorem cleanupUser_frame (expStore : List Expense) (anaStore : List AnalysisDoc)
    (u : String) (months y m : Int) (e : Expense)
    (hnodup : (expStore.map (fun x => x.id)).Nodup) (hu : u ≠ "")
    (he : e ∈ expStore)
    (hsafe : e.userId ≠ some u ∨ (calculateCutoffDate y m months).toDay < e.date) :
    e ∈ (cleanupUser expStore anaStore u months y m).1
    ∧ ∀ x ∈ expStore, x ∉ (cleanupUser expStore anaStore u months y m).1 →
        x ∈ retentionDeletionSet expStore u y m months := by
  have hinj := List.inj_on_of_nodup_map hnodup
  have hred : (cleanupUser expStore anaStore u months y m).1
      = removeMatchedExpenses expStore (retentionDeletionSet expStore u y m months) :=
    rfl
  constructor
  · rw [hred, mem_removeMatchedExpenses]
    refine ⟨he, ?_⟩
    intro d hd hid
    rw [mem_retentionDeletionSet] at hd
    obtain ⟨hd1, hd2, hd3, hd4⟩ := hd
    have hed : e = d := hinj he hd1 hid
    rcases hsafe with hcase | hcase
    · exact hcase (hed ▸ hd2 hu)
    · exact absurd hd4 (not_le.mpr (hed ▸ hcase))
  · intro x hx hnotin
    rw [hred, mem_removeMatchedExpenses] at hnotin
    push_neg at hnotin
    obtain ⟨d, hd, hid⟩ := hnotin hx
    have hxd : x = d :=
      hinj hx ((mem_retentionDeletionSet expStore u y m months d).mp hd).1 hid
    rw [hxd]
    exact hd

/-- C10 witness: an expense of a different owner survives a concrete
cleanup run. -/
theorem cleanupUser_frame_witness :
    ((([⟨0, some "a", 100, 1, "x", none⟩, ⟨1, some "u", epochDay, 1, "y", none⟩] :
        List Expense).map (fun x => x.id)).Nodup
      ∧ ("u" : String) ≠ ""
      ∧ (⟨0, some "a", 100, 1, "x", none⟩ : Expense)
          ∈ ([⟨0, some "a", 100, 1, "x", none⟩,
              ⟨1, some "u", epochDay, 1, "y", none⟩] : List Expense))
    ∧ (⟨0, some "a", 100, 1, "x", none⟩ : Expense)
        ∈ (cleanupUser [⟨0, some "a", 100, 1, "x", none⟩,
            ⟨1, some "u", epochDay, 1, "y", none⟩] [] "u" 3 2025 2).1 := by
  refine ⟨⟨by decide, by decide, by decide⟩, ?_⟩
  exact (cleanupUser_frame [⟨0, some "a", 100, 1, "x", none⟩,
    ⟨1, some "u", epochDay, 1, "y", none⟩] [] "u" 3 2025 2
    ⟨0, some "a", 100, 1, "x", none⟩ (by decide) (by decide) (by decide)
    (Or.inl (by decide))).1

end ExpenseTracker
